import Mathlib

/-!
Verification of the Browser-Query-AI core (Go) against its specification.

Shallow embedding of:
* the CDP control client (`internal/cdp`: `Client.SendCommand`, `Client.Close`,
  `Client.handleMessage`, `Client.handleResponse`, the `pending` waiter map and
  the request-id counter);
* the session manager (`internal/session`: `Manager.CreateSession`,
  `Manager.GetSession`, `Manager.DestroySession`, `Manager.ListSessions`,
  `Manager.Close`, `Manager.GetOrCreateCDPClient`, `generateSessionID`);
* the managed-process session counter (`internal/pool/process.go`).

Go maps are embedded as association lists with the exact lookup/insert/delete
semantics Go uses (`delete` on an absent key is a no-op).  Go channels of
capacity one are embedded as an explicit three-state cell (empty / holding a
response / closed); a receive from a closed channel of pointer type yields the
nil pointer, embedded as `Option.none`.  The Go `select` statement is embedded
by quantifying over the chosen branch among the ready ones.
-/

namespace BrowserQueryAI

/-! ## CDP wire types (`internal/cdp/types.go`) -/

/-- `ResponseError` from `internal/cdp/types.go`: the error field of a CDP
response. -/
structure ResponseError where
  code : Int
  message : String
deriving DecidableEq, Repr

/-- `Response` from `internal/cdp/types.go`.  `id` is a Go `int` (64-bit,
embedded as `Int`; every id the program puts on the wire is in int64 range);
`result` is the raw JSON payload, kept abstract as a string; `error` is
optional, as in the Go struct where it is a possibly-nil pointer. -/
structure Response where
  id : Int
  result : Option String
  error : Option ResponseError
deriving DecidableEq, Repr

/-- `Event` from `internal/cdp/types.go`. -/
structure Event where
  method : String
deriving DecidableEq, Repr

/-! ## The waiter channel

`SendCommand` allocates `make(chan *Response, 1)` per request.  The channel is
in one of three states: nothing sent yet, holding the one buffered response
(`handleResponse` performed `ch <- response`), or closed (`Close` performed
`close(ch)`).  A receive from the closed state yields the nil `*Response`,
i.e. `Option.none`. -/

inductive ChanState where
  | empty : ChanState
  | holds (r : Response) : ChanState
  | closedCh : ChanState
deriving DecidableEq, Repr

/-- What a (non-blocking) receive from the waiter channel returns:
`none` when the channel is empty (the receive would block, so the select
branch is not ready), `some v` when it is ready, where `v` is the received
`*Response` pointer (`Option.none` = nil, from a closed channel). -/
def chanRecv : ChanState → Option (Option Response)
  | .empty => none
  | .holds r => some (some r)
  | .closedCh => some none

/-! Go maps are embedded as association lists.  `assocLookup` is
`v, exists := m[k]`, `assocDelete` is `delete(m, k)` (a no-op on an absent
key, as in Go), and `assocInsert` is `m[k] = v` (replacing any existing
entry). -/

/-- Go map lookup `v, exists := m[k]`. -/
def assocLookup {α β : Type} [DecidableEq α] (l : List (α × β)) (k : α) : Option β :=
  match l with
  | [] => none
  | (k', v) :: rest => if k' = k then some v else assocLookup rest k

/-- Go map delete `delete(m, k)` (no-op on an absent key). -/
def assocDelete {α β : Type} [DecidableEq α] (l : List (α × β)) (k : α) : List (α × β) :=
  match l with
  | [] => []
  | (k', v) :: rest => if k' = k then rest else (k', v) :: assocDelete rest k

/-- Go map insert `m[k] = v`. -/
def assocInsert {α β : Type} [DecidableEq α] (l : List (α × β)) (k : α) (v : β) :
    List (α × β) :=
  (k, v) :: assocDelete l k

/-- The pending-waiter map `pending map[int]chan *Response` of the Go
`Client`, as an association list from request id (a Go `int`) to channel
state. -/
abbrev Pending := List (Int × ChanState)

/-- Go map lookup `ch, exists := c.pending[id]`. -/
def pendingLookup (p : Pending) (id : Int) : Option ChanState :=
  assocLookup p id

/-- Go map delete `delete(c.pending, id)`: removes the entry if present,
no-op otherwise. -/
def pendingDelete (p : Pending) (id : Int) : Pending :=
  assocDelete p id

/-- Go map insert `c.pending[id] = responseChan`. -/
def pendingInsert (p : Pending) (id : Int) (c : ChanState) : Pending :=
  assocInsert p id c

/-- Whether the map has an entry for `id`. -/
def pendingContains (p : Pending) (id : Int) : Bool :=
  (pendingLookup p id).isSome

/-! ## The select in `SendCommand` (part_001 lines 182-201)

After the write succeeds the caller blocks on
`select { case response := <-responseChan; ... case <-time.After(10s); ...
case <-c.ctx.Done(); ... }`.  `WaiterState` is the state of the three
sources at the moment the select commits; a branch may be chosen only if it
is ready, and when several are ready Go picks one of them
nondeterministically. -/

structure WaiterState where
  chan : ChanState
  timerFired : Bool
  ctxCancelled : Bool
deriving DecidableEq, Repr

inductive Branch where
  | chanRecvB : Branch
  | timer : Branch
  | ctxDone : Branch
deriving DecidableEq, Repr

/-- The outcome of a `SendCommand` call.  `panicNilDeref` is the outcome of the
Go code dereferencing a nil `*Response` (`response.Error` with `response ==
nil`): a runtime panic, not a returned error. -/
inductive SendOutcome where
  | success (result : Option String) : SendOutcome
  | remoteErr (code : Int) (message : String) : SendOutcome
  | timeout : SendOutcome
  | closedErr : SendOutcome
  | transportErr : SendOutcome
  | panicNilDeref : SendOutcome
deriving DecidableEq, Repr

/-- One branch of the select, exactly as the Go code handles it.
`none` means the branch is not ready (the select cannot commit to it).
* `chanRecvB`: `response := <-responseChan`; then
  `if response.Error != nil { return Remote } return response.Result, nil`.
  A receive from the closed channel yields nil and the field access
  `response.Error` panics.
* `timer`: `<-time.After(10 * time.Second)` — ready iff the timer fired;
  returns the timeout error.
* `ctxDone`: `<-c.ctx.Done()` — ready iff the context was cancelled;
  returns the "client closed" error. -/
def selectBranch (w : WaiterState) : Branch → Option SendOutcome
  | .chanRecvB =>
      match chanRecv w.chan with
      | none => none
      | some none => some .panicNilDeref
      | some (some r) =>
          match r.error with
          | some e => some (.remoteErr e.code e.message)
          | none => some (.success r.result)
  | .timer => if w.timerFired then some .timeout else none
  | .ctxDone => if w.ctxCancelled then some .closedErr else none

/-! ## `Client.Close` (part_001 lines 205-228)

Inside the `closeOnce`: cancel the context, close the connection, then under
the mutex `close(ch)` and `delete(c.pending, id)` for every pending entry.
We embed the effect on one registered waiter and on the map. -/

/-- State of one client as far as close/waiter interaction is concerned:
the pending map, the context flag and the connection-closed flag. -/
structure ClientCloseState where
  pending : Pending
  ctxCancelled : Bool
  connClosed : Bool
deriving DecidableEq, Repr

/-- `Client.Close` body (first run of the `closeOnce`): cancel the context,
close the connection, close every pending channel and delete every pending
entry. -/
def closeClient (_s : ClientCloseState) : ClientCloseState :=
  { pending := []
    ctxCancelled := true
    connClosed := true }

/-- The waiter state a caller blocked in `SendCommand` observes after
`Close` ran to completion: its channel was closed by the cleanup loop and the
context is cancelled (the timer is whatever it was). -/
def waiterAfterClose (timerFired : Bool) : WaiterState :=
  { chan := .closedCh, timerFired := timerFired, ctxCancelled := true }

/-! ## The receiver: `handleMessage` / `handleResponse` (part_002)

`handleMessage` unmarshals the frame into `Response`; a frame without an `id`
field leaves `response.ID` at its zero value, so `response.ID != 0`
distinguishes responses from events.  We embed an inbound frame as either a
malformed message (unmarshal error) or a parsed frame carrying the fields the
Go code reads. -/

inductive InboundMsg where
  | malformed : InboundMsg
  | frame (id : Int) (result : Option String) (error : Option ResponseError)
      (method : String) : InboundMsg
deriving DecidableEq, Repr

/-- Observable effect of handling one inbound frame, used to state what the
receiver did (deliver / drop / dispatch event / parse error). -/
inductive HandleAction where
  | delivered (r : Response) : HandleAction
  | droppedUnknownId (id : Int) : HandleAction
  | eventDispatched (method : String) : HandleAction
  | parseError : HandleAction
deriving DecidableEq, Repr

/-- `Client.handleResponse` (part_002 lines 35-51): under the mutex, look up
the channel for `response.ID`; if absent, log a warning and return; otherwise
send the response on the channel (`delivered` records the handed response;
the waiter's channel is then `deliveredChan r`) and delete the entry. -/
def handleResponse (p : Pending) (r : Response) : Pending × HandleAction :=
  match pendingLookup p r.id with
  | none => (p, .droppedUnknownId r.id)
  | some _ => (pendingDelete p r.id, .delivered r)

/-- The value the waiter's channel holds after `handleResponse` delivered
`r` (`ch <- response`). -/
def deliveredChan (r : Response) : ChanState := .holds r

/-- `Client.handleMessage` (part_002 lines 9-31): unmarshal; on error return;
if `response.ID != 0` treat as a response, otherwise unmarshal as an event and
dispatch it (`handleEvent` only logs, so it touches no waiter state). -/
def handleMessage (p : Pending) (m : InboundMsg) : Pending × HandleAction :=
  match m with
  | .malformed => (p, .parseError)
  | .frame id result error method =>
      if id ≠ 0 then
        handleResponse p { id := id, result := result, error := error }
      else
        (p, .eventDispatched method)

/-! ## The request-id counter (part_001 lines 148-157, C4)

`SendCommand` runs `c.mu.Lock(); c.requestID++; id := c.requestID; ...;
c.mu.Unlock()`.  The mutex serializes concurrent calls, so any interleaving
of `k` calls is some serial order of `k` increment-and-read operations on the
counter.  `requestID` is a Go `int` — a 64-bit two's-complement integer whose
`++` wraps around: incrementing 2^63 - 1 (9223372036854775807) yields
-2^63 (-9223372036854775808). -/

/-- Two's-complement wraparound of Go's 64-bit `int`: the representative of
`n` in [-2^63, 2^63).  9223372036854775808 = 2^63 and
18446744073709551616 = 2^64. -/
def wrapInt64 (n : Int) : Int :=
  (n + 9223372036854775808) % 18446744073709551616 - 9223372036854775808

/-- One locked `c.requestID++; id := c.requestID` step on the 64-bit
counter: returns the new counter value and the issued id (both the wrapped
increment). -/
def nextRequestID (counter : Int) : Int × Int :=
  (wrapInt64 (counter + 1), wrapInt64 (counter + 1))

/-- The ids issued by `k` successive `SendCommand` calls starting from counter
value `c`, in issue order. -/
def issuedIDs (c : Int) : Nat → List Int
  | 0 => []
  | k + 1 => (nextRequestID c).2 :: issuedIDs (nextRequestID c).1 k

/-- The counter value after `k` successive `SendCommand` calls starting from
counter value `c`. -/
def counterAfter (c : Int) : Nat → Int
  | 0 => c
  | k + 1 => counterAfter (nextRequestID c).1 k

/-- The registration and write phase of `SendCommand` (part_001 lines
148-180): under the mutex increment the counter and register an empty
single-slot channel under the new id; then marshal and write the frame.  If
`WriteMessage` fails (`writeOk = false`) the id is deleted from the map and
the call returns the transport error at once.  Returns
(new counter, issued id, pending map afterwards, early outcome — `none` when
the call proceeds to the select). -/
def sendCommandWrite (p : Pending) (counter : Int) (writeOk : Bool) :
    Int × Int × Pending × Option SendOutcome :=
  let id := (nextRequestID counter).2
  let p' := pendingInsert p id .empty
  if writeOk then
    ((nextRequestID counter).1, id, p', none)
  else
    ((nextRequestID counter).1, id, pendingDelete p' id, some .transportErr)

/-! ## Lifecycle of one entry of the waiter map (C3)

Once `SendCommand` has inserted an id, the map entry for that id is touched
at exactly four places in the Go code:
* `handleResponse` — delete after delivering the matching response;
* the `time.After` branch — `delete(c.pending, id)` on timeout;
* the failed-write path — `delete(c.pending, id)` when `WriteMessage` fails;
* `Close` — the cleanup loop deletes every entry.
Each is embedded as an event acting on the pending map with the exact Go
semantics (delete of an absent key is a no-op; `handleResponse` on an unknown
id changes nothing). -/

inductive MapEvent where
  | respArrive (r : Response) : MapEvent
  | timeoutFire (id : Int) : MapEvent
  | writeFail (id : Int) : MapEvent
  | closeCleanup : MapEvent
deriving DecidableEq, Repr

/-- Effect of one event on the pending map. -/
def applyEvent (p : Pending) : MapEvent → Pending
  | .respArrive r => (handleResponse p r).1
  | .timeoutFire id => pendingDelete p id
  | .writeFail id => pendingDelete p id
  | .closeCleanup => []

/-- Effect of a sequence of events. -/
def applyEvents (p : Pending) : List MapEvent → Pending
  | [] => p
  | e :: evs => applyEvents (applyEvent p e) evs

/-- Whether an event is one of the four removal sites for `id`. -/
def eventTargets (id : Int) : MapEvent → Bool
  | .respArrive r => r.id = id
  | .timeoutFire i => i = id
  | .writeFail i => i = id
  | .closeCleanup => true

/-- Whether some event of the trace targets `id` (id is "settled"). -/
def settles (evs : List MapEvent) (id : Int) : Bool :=
  evs.any (eventTargets id)

/-- Number of events of the trace that actually remove `id` from the map:
an event counts iff it targets `id` while `id` is present when it runs. -/
def removalCount (p : Pending) (id : Int) : List MapEvent → Nat
  | [] => 0
  | e :: evs =>
      (if pendingContains p id && eventTargets id e then 1 else 0) +
        removalCount (applyEvent p e) id evs

/-! ## `generateSessionID` (session manager, types.go lines 283-299)

Reads 16 bytes from `crypto/rand`, encodes them with `base64.URLEncoding`
(the URL-safe alphabet, with `=` padding) and prefixes `"sess_"`.  The random
bytes are a parameter of the embedding; `crypto/rand.Read` failure is a
separate parameter of `createSession` below. -/

/-- The URL-safe base64 alphabet used by Go's `base64.URLEncoding`. -/
def base64URLAlphabet : List Char :=
  "ABCDEFGHIJKLMNOPQRSTUVWXYZabcdefghijklmnopqrstuvwxyz0123456789-_".toList

/-- Character of the URL-safe alphabet at index `i` (indices produced by the
encoder are always < 64 for byte inputs). -/
def base64Char (i : Nat) : Char := base64URLAlphabet.getD i '?'

/-- `base64.URLEncoding.EncodeToString`, bytes-to-characters: standard base64
over the URL-safe alphabet, 3 input bytes per 4 output characters, `=`
padding for a trailing group of 1 or 2 bytes. -/
def base64URLChars : List Nat → List Char
  | [] => []
  | [b1] =>
      [base64Char (b1 / 4), base64Char (b1 % 4 * 16), '=', '=']
  | [b1, b2] =>
      [base64Char (b1 / 4), base64Char (b1 % 4 * 16 + b2 / 16),
        base64Char (b2 % 16 * 4), '=']
  | b1 :: b2 :: b3 :: rest =>
      base64Char (b1 / 4) :: base64Char (b1 % 4 * 16 + b2 / 16) ::
        base64Char (b2 % 16 * 4 + b3 / 64) :: base64Char (b3 % 64) ::
        base64URLChars rest

/-- `base64.URLEncoding.EncodeToString` as a string. -/
def encodeToStringURL (bytes : List Nat) : String := ⟨base64URLChars bytes⟩

/-- `generateSessionID` (types.go 283-299), successful path: encode the 16
random bytes and prefix `"sess_"`. -/
def generateSessionID (randomBytes : List Nat) : String :=
  "sess_" ++ encodeToStringURL randomBytes

/-! ## Session and manager state (session package, types.go) -/

/-- `SessionStatus` (types.go 468-475). -/
inductive SessionStatus where
  | active : SessionStatus
  | closed : SessionStatus
  | expired : SessionStatus
deriving DecidableEq, Repr

/-- `Session` (types.go 477-487).  The `*cdp.Client` pointer is embedded as an
identity token (`Nat`); `CreatedAt`/`LastActivity` timestamps are omitted (no
claim concerns them). -/
structure Session where
  ID : String
  ProcessPort : Nat
  ContextID : String
  PageIDs : List String
  CDPClient : Nat
  Status : SessionStatus
deriving DecidableEq, Repr

/-- `Manager` (types.go 268-273): `sessions map[string]*Session` and
`cdpClients map[int]*cdp.Client`, both behind one RWMutex (mutations are
therefore serialized; an operation sequence is their serialization order). -/
structure ManagerState where
  sessions : List (String × Session)
  cdpClients : List (Nat × Nat)
deriving DecidableEq, Repr

/-- `NewManager` (types.go 276-281). -/
def newManager : ManagerState := { sessions := [], cdpClients := [] }

/-- Outcome of the websocket-URL discovery plus `Connect` performed by
`GetOrCreateCDPClient` when no client exists for the port; `ok token` carries
the identity of the freshly created `*cdp.Client`. -/
inductive ClientConn where
  | ok (token : Nat) : ClientConn
  | failed (msg : String) : ClientConn
deriving DecidableEq, Repr

/-- `Manager.GetOrCreateCDPClient` (types.go 302-324): return the existing
client for the port if present; otherwise discover + connect (outcome given by
`conn`); on success register the new client under the port; on failure
register nothing. -/
def getOrCreateCDPClient (m : ManagerState) (port : Nat) (conn : ClientConn) :
    Except String (Nat × ManagerState) :=
  match assocLookup m.cdpClients port with
  | some client => .ok (client, m)
  | none =>
      match conn with
      | .failed e => .error e
      | .ok token => .ok (token, { m with cdpClients := assocInsert m.cdpClients port token })

/-- Environment of one `CreateSession` call: whether `crypto/rand.Read`
succeeded and what bytes it produced, the connect outcome used if no client
exists for the port, and the result of `client.CreateBrowserContext()`. -/
structure CreateEnv where
  randOk : Bool
  randomBytes : List Nat
  conn : ClientConn
  contextResult : Except String String
deriving Repr

/-- `Manager.CreateSession` (types.go 326-367), under the write lock:
generate the session id; get or create the client for the port; create a
browser context on it; on success materialize the session (status active,
empty page list) and register it.  Each failure returns the wrapped error and
performs no further step — note that a context-creation failure happens after
`GetOrCreateCDPClient` has already registered the client. -/
def createSession (m : ManagerState) (port : Nat) (env : CreateEnv) :
    Except String Session × ManagerState :=
  if env.randOk = false then
    (.error "failed to generate session ID", m)
  else
    let sessionID := generateSessionID env.randomBytes
    match getOrCreateCDPClient m port env.conn with
    | .error e => (.error ("failed to get or create CDP client: " ++ e), m)
    | .ok (client, m') =>
        match env.contextResult with
        | .error e => (.error ("failed to create browser context: " ++ e), m')
        | .ok contextID =>
            let session : Session :=
              { ID := sessionID
                ProcessPort := port
                ContextID := contextID
                PageIDs := []
                CDPClient := client
                Status := .active }
            (.ok session, { m' with sessions := assocInsert m'.sessions sessionID session })

/-- `Manager.GetSession` (types.go 370-382), under the read lock. -/
def getSession (m : ManagerState) (sessionID : String) : Except String Session :=
  match assocLookup m.sessions sessionID with
  | none => .error ("session not found: " ++ sessionID)
  | some s => .ok s

/-- `Manager.DestroySession` (types.go 384-416), under the write lock: look
up the session (error if absent); call `CloseTarget` on every tracked page id
(close errors are only logged — `closeCalls` in the result records the pages
for which the call was issued); call `DisposeBrowserContext` (`disposeErr`
is its outcome) and return its wrapped error on failure, leaving the map
untouched; on success mark the session closed and delete it from the map.
Returns (result, new manager state, page ids whose `CloseTarget` was
invoked). -/
def destroySession (m : ManagerState) (sessionID : String)
    (disposeErr : Option String) :
    Except String Unit × ManagerState × List String :=
  match assocLookup m.sessions sessionID with
  | none => (.error ("session not found: " ++ sessionID), m, [])
  | some session =>
      let closeCalls := session.PageIDs
      match disposeErr with
      | some e => (.error ("failed to dispose browser context: " ++ e), m, closeCalls)
      | none =>
          (.ok (), { m with sessions := assocDelete m.sessions sessionID }, closeCalls)

/-- `Manager.ListSessions` (types.go 419-433). -/
def listSessions (m : ManagerState) : List Session :=
  m.sessions.map (·.2)

/-- `Manager.Close` (types.go 442-459): close every client, then clear both
maps. -/
def closeManager (_m : ManagerState) : ManagerState :=
  { sessions := [], cdpClients := [] }

/-! ## The managed process's session counter (internal/pool/process.go) -/

/-- `ManagedProcess.IncrementSessionCount` (process.go 56-58):
`atomic.AddInt64(&mp.sessionCount, 1)`. -/
def incrementSessionCount (sessionCount : Int) : Int := sessionCount + 1

/-- `ManagedProcess.DecrementSessionCount` (process.go 61-63):
`atomic.AddInt64(&mp.sessionCount, -1)`. -/
def decrementSessionCount (sessionCount : Int) : Int := sessionCount + (-1)

/-- The session manager together with the session counter of the owning
managed process. -/
structure SessionSystem where
  manager : ManagerState
  sessionCount : Int
deriving DecidableEq, Repr

/-- The complete destroy path reachable from `DELETE /sessions/{id}`:
the HTTP handler (part_003 lines 111-128) calls `Manager.DestroySession` and
nothing else; no code in the repository calls
`ManagedProcess.DecrementSessionCount`, so the counter of the owning process
is left untouched by session destruction. -/
def systemDestroySession (sys : SessionSystem) (sessionID : String)
    (disposeErr : Option String) :
    Except String Unit × SessionSystem × List String :=
  let (r, m', closeCalls) := destroySession sys.manager sessionID disposeErr
  (r, { manager := m', sessionCount := sys.sessionCount }, closeCalls)

/-! ## Operation sequences on the manager (C8) -/

/-- One serialized manager operation (mutations are totally ordered by the
manager's RWMutex). -/
inductive ManagerOp where
  | create (port : Nat) (env : CreateEnv) : ManagerOp
  | get (sessionID : String) : ManagerOp
  | destroy (sessionID : String) (disposeErr : Option String) : ManagerOp
  | list : ManagerOp
  | closeAll : ManagerOp

/-- State after one manager operation (`GetSession`/`ListSessions` only
read). -/
def applyOp (m : ManagerState) : ManagerOp → ManagerState
  | .create port env => (createSession m port env).2
  | .get _ => m
  | .destroy sid disposeErr => (destroySession m sid disposeErr).2.1
  | .list => m
  | .closeAll => closeManager m

/-- State after a sequence of manager operations, starting anywhere. -/
def applyOps (m : ManagerState) : List ManagerOp → ManagerState
  | [] => m
  | op :: ops => applyOps (applyOp m op) ops

/-- The C8 invariant, decidably: every registered session's stored client
reference equals the manager's port-to-client entry for that session's
port. -/
def clientRefInvariant (m : ManagerState) : Bool :=
  m.sessions.all fun pr =>
    assocLookup m.cdpClients pr.2.ProcessPort == some pr.2.CDPClient

/-! ## Generic facts about the Go-map embedding -/

/-- The keys of an association list. -/
def assocKeys {α β : Type} (l : List (α × β)) : List α := l.map Prod.fst

/-- A well-formed Go map has no duplicate keys (guaranteed for every map the
program builds, since insertion replaces). -/
def keysNodup {α β : Type} (l : List (α × β)) : Prop := (assocKeys l).Nodup

theorem assocDelete_sublist {α β : Type} [DecidableEq α] (l : List (α × β)) (k : α) :
    List.Sublist (assocDelete l k) l := by
  induction l with
  | nil => simp [assocDelete]
  | cons hd tl ih =>
      by_cases h : hd.1 = k
      · simp [assocDelete, h, List.sublist_cons_self hd tl]
      · simpa [assocDelete, h] using List.Sublist.cons₂ hd ih

theorem keysNodup_delete {α β : Type} [DecidableEq α] {l : List (α × β)}
    (h : keysNodup l) (k : α) : keysNodup (assocDelete l k) :=
  List.Nodup.sublist (List.Sublist.map Prod.fst (assocDelete_sublist l k)) h

theorem assocLookup_eq_none_of_not_mem {α β : Type} [DecidableEq α]
    {l : List (α × β)} {k : α} (h : k ∉ assocKeys l) : assocLookup l k = none := by
  induction l with
  | nil => rfl
  | cons hd tl ih =>
      simp only [assocKeys, List.map_cons, List.mem_cons, not_or] at h
      have hne : hd.1 ≠ k := fun he => h.1 he.symm
      simp only [assocLookup, if_neg hne]
      exact ih h.2

theorem assocLookup_isSome_of_mem {α β : Type} [DecidableEq α]
    {l : List (α × β)} {pr : α × β} (h : pr ∈ l) :
    (assocLookup l pr.1).isSome = true := by
  induction l with
  | nil => simp at h
  | cons hd tl ih =>
      rcases List.mem_cons.mp h with h | h
      · simp [assocLookup, h]
      · by_cases he : hd.1 = pr.1
        · simp [assocLookup, he]
        · simpa [assocLookup, he] using ih h

theorem assocLookup_delete_self {α β : Type} [DecidableEq α]
    {l : List (α × β)} (h : keysNodup l) (k : α) :
    assocLookup (assocDelete l k) k = none := by
  induction l with
  | nil => rfl
  | cons hd tl ih =>
      simp only [keysNodup, assocKeys, List.map_cons, List.nodup_cons] at h
      by_cases he : hd.1 = k
      · simp only [assocDelete, if_pos he]
        apply assocLookup_eq_none_of_not_mem
        rw [← he]
        exact h.1
      · simp only [assocDelete, if_neg he, assocLookup, if_neg he]
        exact ih h.2

theorem assocLookup_delete_ne {α β : Type} [DecidableEq α]
    (l : List (α × β)) {k k' : α} (h : k' ≠ k) :
    assocLookup (assocDelete l k) k' = assocLookup l k' := by
  induction l with
  | nil => rfl
  | cons hd tl ih =>
      by_cases he : hd.1 = k
      · have hne : hd.1 ≠ k' := fun hk => h (hk ▸ he)
        simp only [assocDelete, if_pos he, assocLookup, if_neg hne]
      · simp only [assocDelete, if_neg he, assocLookup]
        by_cases he' : hd.1 = k'
        · simp [he']
        · simp [he', ih]

theorem assocLookup_insert_self {α β : Type} [DecidableEq α]
    (l : List (α × β)) (k : α) (v : β) :
    assocLookup (assocInsert l k v) k = some v := by
  simp [assocInsert, assocLookup]

theorem assocLookup_insert_ne {α β : Type} [DecidableEq α]
    (l : List (α × β)) {k k' : α} (v : β) (h : k' ≠ k) :
    assocLookup (assocInsert l k v) k' = assocLookup l k' := by
  have hne : ¬ k = k' := fun he => h he.symm
  simp only [assocInsert, assocLookup, if_neg hne]
  exact assocLookup_delete_ne l h

theorem keysNodup_insert {α β : Type} [DecidableEq α]
    {l : List (α × β)} (h : keysNodup l) (k : α) (v : β) :
    keysNodup (assocInsert l k v) := by
  simp only [keysNodup, assocKeys, assocInsert, List.map_cons, List.nodup_cons]
  refine ⟨?_, keysNodup_delete h k⟩
  intro hmem
  rcases List.mem_map.mp hmem with ⟨pr, hpr, hfst⟩
  have hs := assocLookup_isSome_of_mem hpr
  rw [hfst, assocLookup_delete_self h k] at hs
  simp at hs

theorem assocLookup_mem {α β : Type} [DecidableEq α]
    {l : List (α × β)} {k : α} {v : β} (h : assocLookup l k = some v) :
    (k, v) ∈ l := by
  induction l with
  | nil => simp [assocLookup] at h
  | cons hd tl ih =>
      rcases hd with ⟨k0, v0⟩
      by_cases he : k0 = k
      · subst he
        simp [assocLookup] at h
        subst h
        exact List.mem_cons_self _ _
      · simp only [assocLookup, if_neg he] at h
        exact List.mem_cons_of_mem _ (ih h)

/-! ## C4 — request ids and the 64-bit wraparound -/

theorem wrapInt64_eq_self {x : Int}
    (hlo : -9223372036854775808 ≤ x) (hhi : x < 9223372036854775808) :
    wrapInt64 x = x := by
  unfold wrapInt64
  omega

theorem counterAfter_no_wrap : ∀ (k : Nat) (c : Int),
    -9223372036854775808 ≤ c → c + k < 9223372036854775808 →
    counterAfter c k = c + k
  | 0, c, _, _ => by simp [counterAfter]
  | k + 1, c, hlo, hhi => by
      push_cast at hhi
      have hwrap : wrapInt64 (c + 1) = c + 1 :=
        wrapInt64_eq_self (by omega) (by omega)
      have hstep : counterAfter c (k + 1) = counterAfter (wrapInt64 (c + 1)) k := rfl
      rw [hstep, hwrap,
        counterAfter_no_wrap k (c + 1) (by omega) (by omega)]
      push_cast
      ring

theorem issuedIDs_append : ∀ (k : Nat) (c : Int) (j : Nat),
    issuedIDs c (k + j) = issuedIDs c k ++ issuedIDs (counterAfter c k) j
  | 0, c, j => by simp [issuedIDs, counterAfter]
  | k + 1, c, j => by
      have hshift : k + 1 + j = (k + j) + 1 := by omega
      rw [hshift]
      simp only [issuedIDs, counterAfter]
      rw [issuedIDs_append k (nextRequestID c).1 j]
      simp [List.cons_append]

theorem issuedIDs_mem_gt : ∀ (k : Nat) (c : Int),
    -9223372036854775808 ≤ c → c + k < 9223372036854775808 →
    ∀ x ∈ issuedIDs c k, c < x
  | 0, _, _, _, x, hx => by simp [issuedIDs] at hx
  | k + 1, c, hlo, hhi, x, hx => by
      push_cast at hhi
      have hwrap : wrapInt64 (c + 1) = c + 1 :=
        wrapInt64_eq_self (by omega) (by omega)
      simp only [issuedIDs] at hx
      rw [show (nextRequestID c).2 = wrapInt64 (c + 1) from rfl,
        show (nextRequestID c).1 = wrapInt64 (c + 1) from rfl, hwrap] at hx
      rcases List.mem_cons.mp hx with hx | hx
      · omega
      · have hgt := issuedIDs_mem_gt k (c + 1) (by omega) (by omega) x hx
        omega

theorem issuedIDs_pairwise : ∀ (k : Nat) (c : Int),
    -9223372036854775808 ≤ c → c + k < 9223372036854775808 →
    (issuedIDs c k).Pairwise (· < ·)
  | 0, _, _, _ => List.Pairwise.nil
  | k + 1, c, hlo, hhi => by
      push_cast at hhi
      have hwrap : wrapInt64 (c + 1) = c + 1 :=
        wrapInt64_eq_self (by omega) (by omega)
      simp only [issuedIDs]
      rw [show (nextRequestID c).2 = wrapInt64 (c + 1) from rfl,
        show (nextRequestID c).1 = wrapInt64 (c + 1) from rfl, hwrap]
      refine List.Pairwise.cons ?_
        (issuedIDs_pairwise k (c + 1) (by omega) (by omega))
      intro x hx
      exact issuedIDs_mem_gt k (c + 1) (by omega) (by omega) x hx

/-- C4 (counterexample): `requestID` is a Go `int` and wraps.  After
2^63 - 2 calls from a fresh client the counter holds 2^63 - 2; the next call
issues id 2^63 - 1 (maxInt64) and the call after that wraps to -2^63
(minInt64), a smaller id — so over a long enough sequence of calls the issued
ids are neither strictly increasing nor (after a full 2^64-call cycle)
unique.  In particular the ids of 2^63 calls from a fresh client are not
strictly increasing. -/
theorem sendCommand_ids_wrap_counterexample :
    counterAfter 0 9223372036854775806 = 9223372036854775806 ∧
    issuedIDs (9223372036854775806 : Int) 2 =
      [9223372036854775807, -9223372036854775808] ∧
    ¬ (issuedIDs (9223372036854775806 : Int) 2).Pairwise (· < ·) ∧
    ¬ (issuedIDs 0 (9223372036854775806 + 2)).Pairwise (· < ·) := by
  have h1 : counterAfter 0 9223372036854775806 = 9223372036854775806 := by
    rw [counterAfter_no_wrap 9223372036854775806 0 (by decide) (by norm_num)]
    norm_num
  have h2 : issuedIDs (9223372036854775806 : Int) 2 =
      [9223372036854775807, -9223372036854775808] := by decide
  have h3 : ¬ (issuedIDs (9223372036854775806 : Int) 2).Pairwise (· < ·) := by
    rw [h2]
    intro hp
    have := List.rel_of_pairwise_cons hp (List.mem_singleton_self _)
    omega
  refine ⟨h1, h2, h3, ?_⟩
  intro hp
  rw [issuedIDs_append 9223372036854775806 0 2, h1] at hp
  exact h3 (List.pairwise_append.mp hp).2.1

/-- C4 amended: over the life of one control client, the request ids issued
by `SendCommand` are unique and strictly increasing across any sequence of
calls that keeps the 64-bit counter below 2^63 — in particular across any
sequence of at most 2^63 - 1 calls from a fresh client (counter 0).
Concurrent calls are serialized by the client mutex around
`c.requestID++; id := c.requestID`, so any interleaving of `k` calls is some
serial order modelled by `issuedIDs`.  Beyond that bound the counter wraps to
-2^63 and the guarantee fails. -/
theorem sendCommand_ids_increase_before_wrap (c : Int) (k : Nat)
    (hlo : -9223372036854775808 ≤ c) (hhi : c + k < 9223372036854775808) :
    (issuedIDs c k).Pairwise (· < ·) ∧ (issuedIDs c k).Nodup := by
  have hp := issuedIDs_pairwise k c hlo hhi
  exact ⟨hp, hp.imp fun h => ne_of_lt h⟩

/-- Witness for C4 (amended): three calls from a fresh client. -/
theorem sendCommand_ids_increase_before_wrap_witness :
    (issuedIDs 0 3).Pairwise (· < ·) ∧ (issuedIDs 0 3).Nodup :=
  sendCommand_ids_increase_before_wrap 0 3 (by decide) (by decide)

/-! ## C9 — shape of generated session ids -/

theorem base64URLChars_length : ∀ (bytes : List Nat),
    (base64URLChars bytes).length = 4 * ((bytes.length + 2) / 3)
  | [] => rfl
  | [_] => by simp only [base64URLChars, List.length_cons, List.length_nil]
  | [_, _] => by simp only [base64URLChars, List.length_cons, List.length_nil]
  | _ :: _ :: _ :: rest => by
      have ih := base64URLChars_length rest
      simp only [base64URLChars, List.length_cons, ih]
      omega

theorem base64Char_mem_alphabet : ∀ i : Nat, i < 64 → base64Char i ∈ base64URLAlphabet := by
  decide

theorem base64URLChars_mem : ∀ (bytes : List Nat), (∀ b ∈ bytes, b < 256) →
    ∀ c ∈ base64URLChars bytes, c ∈ base64URLAlphabet ∨ c = '='
  | [], _, c, hc => by simp [base64URLChars] at hc
  | [b1], h, c, hc => by
      have hb1 : b1 < 256 := h b1 (by simp)
      simp only [base64URLChars, List.mem_cons, List.not_mem_nil, or_false] at hc
      rcases hc with hc | hc | hc | hc
      · exact Or.inl (hc ▸ base64Char_mem_alphabet _ (by omega))
      · exact Or.inl (hc ▸ base64Char_mem_alphabet _ (by omega))
      · exact Or.inr hc
      · exact Or.inr hc
  | [b1, b2], h, c, hc => by
      have hb1 : b1 < 256 := h b1 (by simp)
      have hb2 : b2 < 256 := h b2 (by simp)
      simp only [base64URLChars, List.mem_cons, List.not_mem_nil, or_false] at hc
      rcases hc with hc | hc | hc | hc
      · exact Or.inl (hc ▸ base64Char_mem_alphabet _ (by omega))
      · exact Or.inl (hc ▸ base64Char_mem_alphabet _ (by omega))
      · exact Or.inl (hc ▸ base64Char_mem_alphabet _ (by omega))
      · exact Or.inr hc
  | b1 :: b2 :: b3 :: rest, h, c, hc => by
      have hb1 : b1 < 256 := h b1 (by simp)
      have hb2 : b2 < 256 := h b2 (by simp)
      have hb3 : b3 < 256 := h b3 (by simp)
      simp only [base64URLChars, List.mem_cons] at hc
      rcases hc with hc | hc | hc | hc | hc
      · exact Or.inl (hc ▸ base64Char_mem_alphabet _ (by omega))
      · exact Or.inl (hc ▸ base64Char_mem_alphabet _ (by omega))
      · exact Or.inl (hc ▸ base64Char_mem_alphabet _ (by omega))
      · exact Or.inl (hc ▸ base64Char_mem_alphabet _ (by omega))
      · exact base64URLChars_mem rest (fun b hb => h b (by simp [hb])) c hc

/-- C9: every session id produced by `generateSessionID` from 16 random bytes
is the string `"sess_"` followed by the URL-safe base64 encoding of those
bytes: a 24-character block over the URL-safe alphabet with `=` padding, for
a total id length of 29. -/
theorem generateSessionID_shape (bytes : List Nat) (hlen : bytes.length = 16)
    (hbytes : ∀ b ∈ bytes, b < 256) :
    generateSessionID bytes = "sess_" ++ encodeToStringURL bytes ∧
    (encodeToStringURL bytes).length = 24 ∧
    (generateSessionID bytes).length = 29 ∧
    ∀ c ∈ (encodeToStringURL bytes).toList, c ∈ base64URLAlphabet ∨ c = '=' := by
  have hchars : (base64URLChars bytes).length = 24 := by
    rw [base64URLChars_length, hlen]
  have henc : (encodeToStringURL bytes).length = 24 := by
    simpa [encodeToStringURL, String.length] using hchars
  refine ⟨rfl, henc, ?_, ?_⟩
  · rw [generateSessionID, String.length_append, henc]
    decide
  · intro c hc
    have : c ∈ base64URLChars bytes := by
      simpa [encodeToStringURL, String.toList] using hc
    exact base64URLChars_mem bytes hbytes c this

/-- Witness for C9 at a concrete input: the all-zero 16-byte vector. -/
theorem generateSessionID_shape_witness :
    (List.replicate 16 0).length = 16 ∧
    generateSessionID (List.replicate 16 0) =
      "sess_" ++ encodeToStringURL (List.replicate 16 0) ∧
    (generateSessionID (List.replicate 16 0)).length = 29 :=
  ⟨by decide,
    (generateSessionID_shape (List.replicate 16 0) (by decide)
      (by decide)).1,
    (generateSessionID_shape (List.replicate 16 0) (by decide)
      (by decide)).2.2.1⟩

/-! ## C5 — receiver dispatch -/

/-- C5: for every inbound frame the receiver handles: a parsed non-zero id is
treated as a response — with a waiter registered under that id, the parsed
response is handed to it and the waiter is removed from the map; with no
registered waiter the frame is dropped (warn log) and no waiter state
changes; a frame with absent-or-zero id is treated as an event and never
satisfies any in-flight waiter (the map is untouched); a frame that fails to
parse changes nothing. -/
theorem handleMessage_dispatch (p : Pending) (result : Option String)
    (error : Option ResponseError) (method : String) :
    (∀ id, id ≠ 0 →
      (pendingContains p id = true →
        handleMessage p (.frame id result error method) =
          (pendingDelete p id, .delivered ⟨id, result, error⟩)) ∧
      (pendingContains p id = false →
        handleMessage p (.frame id result error method) = (p, .droppedUnknownId id))) ∧
    handleMessage p (.frame 0 result error method) = (p, .eventDispatched method) ∧
    handleMessage p .malformed = (p, .parseError) := by
  refine ⟨?_, by simp [handleMessage], rfl⟩
  intro id hid
  constructor
  · intro hc
    rcases Option.isSome_iff_exists.mp hc with ⟨ch, hch⟩
    simp [handleMessage, hid, handleResponse, hch]
  · intro hc
    have hl : pendingLookup p id = none := by
      cases hl : pendingLookup p id with
      | none => rfl
      | some ch => rw [pendingContains, hl] at hc; simp at hc
    simp [handleMessage, hid, handleResponse, hl]

/-- Witness for C5: a map with a waiter registered under id 1 receiving the
matching response frame. -/
theorem handleMessage_dispatch_witness :
    handleMessage [(1, ChanState.empty)] (.frame 1 none none "Target.attached") =
      (pendingDelete [(1, ChanState.empty)] 1,
        .delivered ⟨1, none, none⟩) :=
  ((handleMessage_dispatch [(1, ChanState.empty)] none none "Target.attached").1
    1 (by decide)).1 (by decide)

/-! ## C1 — a pending caller during `Close` can panic instead of observing Closed

`Close` wakes outstanding waiters by `close(ch)`.  A receive from the closed
channel yields the nil `*Response`, and `SendCommand`'s response branch then
dereferences it (`response.Error`), which panics.  After `Close` ran, both
the response-channel branch and the `ctx.Done()` branch of the select are
ready and Go chooses between them pseudo-randomly, so the interleaving that
picks the channel branch crashes the caller rather than returning the
`Closed` error. -/

/-- C1 (code bug): evaluated at the failing input — one command in flight
(waiter channel still empty) when `Close` runs to completion.  The select
then has two ready branches: the channel branch produces the nil-dereference
panic, the context branch produces the `Closed` error; the panic outcome is
not the `Closed` outcome, contradicting the claim that the caller always
observes `Closed` and never crashes. -/
theorem close_with_pending_waiter_can_panic :
    closeClient { pending := [(1, ChanState.empty)], ctxCancelled := false, connClosed := false } =
      { pending := [], ctxCancelled := true, connClosed := true } ∧
    (waiterAfterClose false).chan = ChanState.closedCh ∧
    selectBranch (waiterAfterClose false) .chanRecvB = some .panicNilDeref ∧
    selectBranch (waiterAfterClose false) .ctxDone = some .closedErr ∧
    SendOutcome.panicNilDeref ≠ SendOutcome.closedErr := by
  refine ⟨rfl, rfl, rfl, rfl, by decide⟩

/-! ## C6 — `SendCommand` outcomes -/

/-- C6 (counterexample to the claim as stated): a matching response with no
error field has arrived and the 10-second timer has not fired, yet — because
the client is concurrently being closed — the `ctx.Done()` branch of the
select is also ready, and the interleaving that picks it returns the `Closed`
error, not success.  So "returns success if and only if a response matching
its id arrived within 10 seconds carrying no error field" fails in the
right-to-left direction. -/
theorem sendCommand_success_iff_counterexample :
    (Response.mk 1 (some "res") none).error = none ∧
    chanRecv (ChanState.holds ⟨1, some "res", none⟩) = some (some ⟨1, some "res", none⟩) ∧
    selectBranch ⟨ChanState.holds ⟨1, some "res", none⟩, false, true⟩ .ctxDone =
      some .closedErr ∧
    ∀ res, SendOutcome.closedErr ≠ SendOutcome.success res :=
  ⟨rfl, rfl, rfl, fun _ h => nomatch h⟩

/-- C6 amended: `SendCommand` returns success only if a matching response
carrying no error field arrived before the timeout; if additionally the
timer has not fired and the client is not being closed when the select
commits, the outcome is necessarily that success, carrying the response's
result.  A write failure yields the transport error with the waiter already
removed from the map; a timeout outcome occurs only once the 10-second timer
fired; a response carrying an error field yields the remote error exposing
that error's code and message, never the result. -/
theorem sendCommand_outcome_spec (w : WaiterState) :
    (∀ b res, selectBranch w b = some (.success res) →
      ∃ r, w.chan = .holds r ∧ r.error = none ∧ res = r.result) ∧
    (∀ b code msg, selectBranch w b = some (.remoteErr code msg) →
      ∃ r, w.chan = .holds r ∧ r.error = some ⟨code, msg⟩) ∧
    (∀ b o r, w.chan = .holds r → r.error = none → w.timerFired = false →
      w.ctxCancelled = false → selectBranch w b = some o → o = .success r.result) ∧
    (∀ b, selectBranch w b = some .timeout → w.timerFired = true) ∧
    (∀ (p : Pending) (counter : Int), keysNodup p →
      (sendCommandWrite p counter false).2.2.2 = some .transportErr ∧
      pendingContains (sendCommandWrite p counter false).2.2.1
        (sendCommandWrite p counter false).2.1 = false) := by
  refine ⟨?_, ?_, ?_, ?_, ?_⟩
  · intro b res h
    cases b with
    | chanRecvB =>
        cases hc : w.chan with
        | empty => simp [selectBranch, chanRecv, hc] at h
        | closedCh => simp [selectBranch, chanRecv, hc] at h
        | holds r =>
            cases he : r.error with
            | some e => simp [selectBranch, chanRecv, hc, he] at h
            | none =>
                simp [selectBranch, chanRecv, hc, he] at h
                exact ⟨r, rfl, he, h.symm⟩
    | timer =>
        by_cases ht : w.timerFired <;> simp [selectBranch, ht] at h
    | ctxDone =>
        by_cases hx : w.ctxCancelled <;> simp [selectBranch, hx] at h
  · intro b code msg h
    cases b with
    | chanRecvB =>
        cases hc : w.chan with
        | empty => simp [selectBranch, chanRecv, hc] at h
        | closedCh => simp [selectBranch, chanRecv, hc] at h
        | holds r =>
            cases he : r.error with
            | none => simp [selectBranch, chanRecv, hc, he] at h
            | some e =>
                simp [selectBranch, chanRecv, hc, he] at h
                refine ⟨r, rfl, ?_⟩
                rw [he]
                cases e
                simp at h
                simp [h.1, h.2]
    | timer =>
        by_cases ht : w.timerFired <;> simp [selectBranch, ht] at h
    | ctxDone =>
        by_cases hx : w.ctxCancelled <;> simp [selectBranch, hx] at h
  · intro b o r hc he ht hx h
    cases b with
    | chanRecvB => simp [selectBranch, chanRecv, hc, he] at h; exact h.symm
    | timer => simp [selectBranch, ht] at h
    | ctxDone => simp [selectBranch, hx] at h
  · intro b h
    cases b with
    | chanRecvB =>
        cases hc : w.chan with
        | empty => simp [selectBranch, chanRecv, hc] at h
        | closedCh => simp [selectBranch, chanRecv, hc] at h
        | holds r =>
            cases he : r.error with
            | some e => simp [selectBranch, chanRecv, hc, he] at h
            | none => simp [selectBranch, chanRecv, hc, he] at h
    | timer =>
        by_cases ht : w.timerFired
        · exact ht
        · simp [selectBranch, ht] at h
    | ctxDone =>
        by_cases hx : w.ctxCancelled <;> simp [selectBranch, hx] at h
  · intro p counter hnodup
    have hred : sendCommandWrite p counter false =
        ((nextRequestID counter).1, (nextRequestID counter).2,
          pendingDelete (pendingInsert p (nextRequestID counter).2 .empty)
            (nextRequestID counter).2, some .transportErr) := by
      simp [sendCommandWrite]
    rw [hred]
    refine ⟨rfl, ?_⟩
    have hdel : pendingDelete (pendingInsert p (nextRequestID counter).2 .empty)
        (nextRequestID counter).2 = assocDelete p (nextRequestID counter).2 := by
      simp [pendingDelete, pendingInsert, assocInsert, assocDelete]
    rw [hdel]
    simp only [pendingContains, pendingLookup]
    rw [assocLookup_delete_self hnodup]
    rfl

/-- Witness for C6 (amended): success branch at a concrete waiter state with
a no-error response, and the transport clause at a concrete map. -/
theorem sendCommand_outcome_spec_witness :
    (∃ r : Response, ChanState.holds (Response.mk 1 (some "res") none) = .holds r ∧
      r.error = none ∧ some "res" = r.result) ∧
    (sendCommandWrite [] 0 false).2.2.2 = some .transportErr :=
  ⟨(sendCommand_outcome_spec ⟨ChanState.holds ⟨1, some "res", none⟩, false, false⟩).1
      .chanRecvB (some "res") (by rfl),
    ((sendCommand_outcome_spec ⟨ChanState.empty, false, false⟩).2.2.2.2
      [] 0 (by simp [keysNodup, assocKeys])).1⟩

/-! ## C3 — each waiter-map entry is removed exactly once -/

theorem pendingLookup_eq_none_of_contains_false {p : Pending} {id : Int}
    (h : pendingContains p id = false) : pendingLookup p id = none := by
  cases hl : pendingLookup p id with
  | none => rfl
  | some ch => rw [pendingContains, hl] at h; simp at h

theorem assocKeys_not_mem_of_lookup_none {α β : Type} [DecidableEq α]
    {l : List (α × β)} {k : α} (h : assocLookup l k = none) : k ∉ assocKeys l := by
  intro hm
  rcases List.mem_map.mp hm with ⟨pr, hpr, hfst⟩
  have hs := assocLookup_isSome_of_mem hpr
  rw [hfst, h] at hs
  simp at hs

theorem applyEvent_sublist (p : Pending) (e : MapEvent) :
    List.Sublist (applyEvent p e) p := by
  cases e with
  | respArrive r =>
      simp only [applyEvent, handleResponse]
      cases h : pendingLookup p r.id with
      | none => exact List.Sublist.refl p
      | some ch => exact assocDelete_sublist p r.id
  | timeoutFire id => exact assocDelete_sublist p id
  | writeFail id => exact assocDelete_sublist p id
  | closeCleanup => exact List.nil_sublist p

theorem keysNodup_applyEvent {p : Pending} (h : keysNodup p) (e : MapEvent) :
    keysNodup (applyEvent p e) :=
  List.Nodup.sublist (List.Sublist.map Prod.fst (applyEvent_sublist p e)) h

theorem applyEvent_contains_false {p : Pending} {id : Int}
    (h : pendingContains p id = false) (e : MapEvent) :
    pendingContains (applyEvent p e) id = false := by
  have hnm : id ∉ assocKeys p :=
    assocKeys_not_mem_of_lookup_none (pendingLookup_eq_none_of_contains_false h)
  have hnm' : id ∉ assocKeys (applyEvent p e) := fun hm =>
    hnm ((List.Sublist.map Prod.fst (applyEvent_sublist p e)).subset hm)
  simp [pendingContains, pendingLookup, assocLookup_eq_none_of_not_mem hnm']

theorem applyEvents_contains_false {id : Int} :
    ∀ (evs : List MapEvent) (p : Pending), pendingContains p id = false →
      pendingContains (applyEvents p evs) id = false
  | [], _, h => h
  | e :: evs, p, h =>
      applyEvents_contains_false evs (applyEvent p e) (applyEvent_contains_false h e)

theorem applyEvent_removes {p : Pending} {id : Int} {e : MapEvent}
    (hnodup : keysNodup p) (ht : eventTargets id e = true) :
    pendingContains (applyEvent p e) id = false := by
  cases e with
  | respArrive r =>
      have hr : r.id = id := by simpa [eventTargets] using ht
      subst hr
      simp only [applyEvent, handleResponse]
      cases h : pendingLookup p r.id with
      | none => simp [pendingContains, h]
      | some ch =>
          simp [pendingContains, pendingLookup, pendingDelete,
            assocLookup_delete_self hnodup]
  | timeoutFire i =>
      have hi : i = id := by simpa [eventTargets] using ht
      subst hi
      simp [applyEvent, pendingContains, pendingLookup, pendingDelete,
        assocLookup_delete_self hnodup]
  | writeFail i =>
      have hi : i = id := by simpa [eventTargets] using ht
      subst hi
      simp [applyEvent, pendingContains, pendingLookup, pendingDelete,
        assocLookup_delete_self hnodup]
  | closeCleanup =>
      simp [applyEvent, pendingContains, pendingLookup, assocLookup]

theorem applyEvent_contains_of_not_target {p : Pending} {id : Int} {e : MapEvent}
    (ht : eventTargets id e = false) :
    pendingContains (applyEvent p e) id = pendingContains p id := by
  cases e with
  | respArrive r =>
      have hr : r.id ≠ id := by simpa [eventTargets] using ht
      simp only [applyEvent, handleResponse]
      cases h : pendingLookup p r.id with
      | none => rfl
      | some ch =>
          simp [pendingContains, pendingLookup, pendingDelete,
            assocLookup_delete_ne _ (Ne.symm hr)]
  | timeoutFire i =>
      have hi : i ≠ id := by simpa [eventTargets] using ht
      simp [applyEvent, pendingContains, pendingLookup, pendingDelete,
        assocLookup_delete_ne _ (Ne.symm hi)]
  | writeFail i =>
      have hi : i ≠ id := by simpa [eventTargets] using ht
      simp [applyEvent, pendingContains, pendingLookup, pendingDelete,
        assocLookup_delete_ne _ (Ne.symm hi)]
  | closeCleanup => simp [eventTargets] at ht

theorem removalCount_zero_of_contains_false {id : Int} :
    ∀ (evs : List MapEvent) (p : Pending), pendingContains p id = false →
      removalCount p id evs = 0
  | [], _, _ => rfl
  | e :: evs, p, h => by
      simp only [removalCount, h, Bool.false_and]
      rw [if_neg Bool.false_ne_true, Nat.zero_add]
      exact removalCount_zero_of_contains_false evs _ (applyEvent_contains_false h e)

theorem removalCount_le_one {id : Int} :
    ∀ (evs : List MapEvent) (p : Pending), keysNodup p → removalCount p id evs ≤ 1
  | [], _, _ => Nat.zero_le 1
  | e :: evs, p, hnodup => by
      by_cases hc : pendingContains p id = true
      · by_cases ht : eventTargets id e = true
        · have h0 := removalCount_zero_of_contains_false evs _
            (applyEvent_removes hnodup ht)
          simp [removalCount, hc, ht, h0]
        · have ht' : eventTargets id e = false := by simpa using ht
          simp only [removalCount, ht', Bool.and_false]
          rw [if_neg Bool.false_ne_true, Nat.zero_add]
          exact removalCount_le_one evs _ (keysNodup_applyEvent hnodup e)
      · have hc' : pendingContains p id = false := by simpa using hc
        simp [removalCount_zero_of_contains_false (e :: evs) p hc']

theorem removalCount_settles {id : Int} :
    ∀ (evs : List MapEvent) (p : Pending), keysNodup p →
      pendingContains p id = true → settles evs id = true →
      removalCount p id evs = 1 ∧ pendingContains (applyEvents p evs) id = false
  | [], _, _, _, hs => by simp [settles] at hs
  | e :: evs, p, hnodup, hc, hs => by
      by_cases ht : eventTargets id e = true
      · have hrem := applyEvent_removes hnodup ht
        have h0 := removalCount_zero_of_contains_false evs _ hrem
        refine ⟨by simp [removalCount, hc, ht, h0], ?_⟩
        simpa [applyEvents] using applyEvents_contains_false evs _ hrem
      · have ht' : eventTargets id e = false := by simpa using ht
        have hs' : settles evs id = true := by
          simp only [settles, List.any_cons, Bool.or_eq_true] at hs
          rcases hs with h | h
          · rw [ht'] at h; exact absurd h (by simp)
          · exact h
        have hc' : pendingContains (applyEvent p e) id = true := by
          rw [applyEvent_contains_of_not_target ht']; exact hc
        have ih := removalCount_settles evs (applyEvent p e)
          (keysNodup_applyEvent hnodup e) hc' hs'
        refine ⟨?_, by simpa [applyEvents] using ih.2⟩
        simp only [removalCount, ht', Bool.and_false]
        rw [if_neg Bool.false_ne_true, Nat.zero_add]
        exact ih.1

theorem applyEvents_sublist : ∀ (evs : List MapEvent) (p : Pending),
    List.Sublist (applyEvents p evs) p
  | [], p => List.Sublist.refl p
  | e :: evs, p =>
      List.Sublist.trans (applyEvents_sublist evs (applyEvent p e)) (applyEvent_sublist p e)

/-- C3: once `SendCommand` has inserted an id into the waiter map, the four
removal sites (matching response, 10-second timeout, failed write, close)
remove it exactly once — at most one event of any trace performs the removal,
and any trace containing an event that settles the id removes it exactly once
and leaves the id out of the map.  `Close`'s cleanup loop empties the map in
one step, and once every in-flight id is settled the waiter map is empty
(steady state). -/
theorem waiter_removed_exactly_once (p : Pending) (id : Int) (evs : List MapEvent)
    (hnodup : keysNodup p) :
    removalCount p id evs ≤ 1 ∧
    (pendingContains p id = true → settles evs id = true →
      removalCount p id evs = 1 ∧ pendingContains (applyEvents p evs) id = false) ∧
    (∀ q : Pending, applyEvent q .closeCleanup = []) ∧
    ((∀ pr ∈ p, settles evs pr.1 = true) → applyEvents p evs = []) := by
  refine ⟨removalCount_le_one evs p hnodup,
    fun hc hs => removalCount_settles evs p hnodup hc hs,
    fun q => rfl, ?_⟩
  intro hall
  by_contra hne
  rcases List.exists_mem_of_ne_nil _ hne with ⟨pr, hpr⟩
  have hmem : pr ∈ p := (applyEvents_sublist evs p).subset hpr
  have hcon : pendingContains p pr.1 = true := by
    simpa [pendingContains, pendingLookup] using assocLookup_isSome_of_mem hmem
  have hgone := (removalCount_settles evs p hnodup hcon (hall pr hmem)).2
  have hstill : pendingContains (applyEvents p evs) pr.1 = true := by
    simpa [pendingContains, pendingLookup] using assocLookup_isSome_of_mem hpr
  rw [hgone] at hstill
  simp at hstill

/-- Witness for C3: one in-flight id (1) settled by its timeout: removed
exactly once and absent afterwards. -/
theorem waiter_removed_exactly_once_witness :
    removalCount [(1, ChanState.empty)] 1 [MapEvent.timeoutFire 1] = 1 ∧
    pendingContains (applyEvents [(1, ChanState.empty)] [MapEvent.timeoutFire 1]) 1 = false :=
  (waiter_removed_exactly_once [(1, ChanState.empty)] 1 [MapEvent.timeoutFire 1]
    (by simp [keysNodup, assocKeys])).2.1 (by decide) (by decide)

/-! ## C7 — a context-creation failure retains the client -/

theorem getOrCreateCDPClient_ok {m m' : ManagerState} {port client : Nat}
    {conn : ClientConn}
    (h : getOrCreateCDPClient m port conn = .ok (client, m')) :
    assocLookup m'.cdpClients port = some client ∧ m'.sessions = m.sessions := by
  cases hl : assocLookup m.cdpClients port with
  | some c =>
      simp only [getOrCreateCDPClient, hl] at h
      cases h
      exact ⟨hl, rfl⟩
  | none =>
      cases conn with
      | failed e =>
          simp only [getOrCreateCDPClient, hl] at h
          exact Except.noConfusion h
      | ok token =>
          simp only [getOrCreateCDPClient, hl] at h
          cases h
          exact ⟨assocLookup_insert_self _ _ _, rfl⟩

/-- C7: if `CreateSession(port)` fails because browser-context creation
returned an error, the error is surfaced to the caller, the control client
established for that port stays registered in the manager, and no session is
added to the session map. -/
theorem createSession_context_failure (m : ManagerState) (port : Nat)
    (env : CreateEnv) (client : Nat) (m' : ManagerState) (e : String)
    (hrand : env.randOk = true)
    (hclient : getOrCreateCDPClient m port env.conn = .ok (client, m'))
    (hctx : env.contextResult = .error e) :
    (createSession m port env).1 = .error ("failed to create browser context: " ++ e) ∧
    assocLookup ((createSession m port env).2).cdpClients port = some client ∧
    ((createSession m port env).2).sessions = m.sessions := by
  obtain ⟨hlook, hsess⟩ := getOrCreateCDPClient_ok hclient
  have hred : createSession m port env =
      (.error ("failed to create browser context: " ++ e), m') := by
    simp [createSession, hrand, hclient, hctx]
  rw [hred]
  exact ⟨rfl, hlook, hsess⟩

/-- Witness for C7: a manager that already has client 7 for port 9222 and a
failing context creation. -/
theorem createSession_context_failure_witness :
    (createSession ⟨[], [(9222, 7)]⟩ 9222
        ⟨true, [], .failed "down", .error "boom"⟩).1 =
      .error ("failed to create browser context: " ++ "boom") ∧
    assocLookup ((createSession ⟨[], [(9222, 7)]⟩ 9222
        ⟨true, [], .failed "down", .error "boom"⟩).2).cdpClients 9222 = some 7 :=
  ⟨(createSession_context_failure ⟨[], [(9222, 7)]⟩ 9222
      ⟨true, [], .failed "down", .error "boom"⟩ 7 ⟨[], [(9222, 7)]⟩ "boom"
      rfl rfl rfl).1,
    (createSession_context_failure ⟨[], [(9222, 7)]⟩ 9222
      ⟨true, [], .failed "down", .error "boom"⟩ 7 ⟨[], [(9222, 7)]⟩ "boom"
      rfl rfl rfl).2.1⟩

/-! ## C10 — a dispose failure leaves the session registered, unchanged -/

/-- C10: for a registered session whose context disposal fails,
`DestroySession` returns the disposal error and leaves the manager state
untouched — the session is still in the map, with the same status (active)
and the same page-id list — although `CloseTarget` was already issued for
every listed page; a later retry is possible and re-issues those closes
(and succeeds once disposal succeeds). -/
theorem destroySession_dispose_failure (m : ManagerState) (sid : String)
    (s : Session) (e : String)
    (hs : assocLookup m.sessions sid = some s) (hact : s.Status = .active) :
    (destroySession m sid (some e)).1 =
      .error ("failed to dispose browser context: " ++ e) ∧
    (destroySession m sid (some e)).2.1 = m ∧
    assocLookup ((destroySession m sid (some e)).2.1).sessions sid = some s ∧
    s.Status = .active ∧
    (destroySession m sid (some e)).2.2 = s.PageIDs ∧
    (destroySession m sid none).1 = .ok () ∧
    (destroySession m sid none).2.2 = s.PageIDs := by
  simp [destroySession, hs, hact]

/-- Witness for C10: a session with two pages whose disposal fails. -/
theorem destroySession_dispose_failure_witness :
    (destroySession ⟨[("sess_C", ⟨"sess_C", 9222, "ctx3", ["p1", "p2"], 7,
        SessionStatus.active⟩)], [(9222, 7)]⟩ "sess_C" (some "gone")).2.2 =
      ["p1", "p2"] ∧
    (destroySession ⟨[("sess_C", ⟨"sess_C", 9222, "ctx3", ["p1", "p2"], 7,
        SessionStatus.active⟩)], [(9222, 7)]⟩ "sess_C" (some "gone")).2.1 =
      ⟨[("sess_C", ⟨"sess_C", 9222, "ctx3", ["p1", "p2"], 7,
        SessionStatus.active⟩)], [(9222, 7)]⟩ :=
  ⟨(destroySession_dispose_failure
      ⟨[("sess_C", ⟨"sess_C", 9222, "ctx3", ["p1", "p2"], 7,
        SessionStatus.active⟩)], [(9222, 7)]⟩ "sess_C"
      ⟨"sess_C", 9222, "ctx3", ["p1", "p2"], 7, SessionStatus.active⟩ "gone"
      rfl rfl).2.2.2.2.1,
    (destroySession_dispose_failure
      ⟨[("sess_C", ⟨"sess_C", 9222, "ctx3", ["p1", "p2"], 7,
        SessionStatus.active⟩)], [(9222, 7)]⟩ "sess_C"
      ⟨"sess_C", 9222, "ctx3", ["p1", "p2"], 7, SessionStatus.active⟩ "gone"
      rfl rfl).2.1⟩

/-! ## C2 — destruction removes the session but does not touch the counter -/

/-- C2 (counterexample): at a concrete state with one registered session and
the owning process's counter at 1, a successful `DestroySession` removes the
session (subsequent `GetSession` fails) — but the counter is still 1, not 0:
no code in the repository invokes `ManagedProcess.DecrementSessionCount`, so
"decrements the owning managed process's session counter by exactly one" is
false. -/
theorem destroy_session_counter_not_decremented :
    (systemDestroySession ⟨⟨[("sess_A", ⟨"sess_A", 9222, "ctx1", ["p1"], 7,
        SessionStatus.active⟩)], [(9222, 7)]⟩, 1⟩ "sess_A" none).1 = .ok () ∧
    getSession (systemDestroySession ⟨⟨[("sess_A", ⟨"sess_A", 9222, "ctx1",
        ["p1"], 7, SessionStatus.active⟩)], [(9222, 7)]⟩, 1⟩ "sess_A"
        none).2.1.manager "sess_A" = .error "session not found: sess_A" ∧
    (systemDestroySession ⟨⟨[("sess_A", ⟨"sess_A", 9222, "ctx1", ["p1"], 7,
        SessionStatus.active⟩)], [(9222, 7)]⟩, 1⟩ "sess_A"
        none).2.1.sessionCount = 1 ∧
    decrementSessionCount 1 = 0 ∧
    (systemDestroySession ⟨⟨[("sess_A", ⟨"sess_A", 9222, "ctx1", ["p1"], 7,
        SessionStatus.active⟩)], [(9222, 7)]⟩, 1⟩ "sess_A"
        none).2.1.sessionCount ≠ decrementSessionCount 1 :=
  ⟨rfl, rfl, rfl, by decide, by decide⟩

/-- C2 amended: for every registered session `s`, a successful
`DestroySession(s.ID)` issues `CloseTarget` for every page id listed in `s`,
disposes `s`'s browser context, and removes `s` from the manager — a
subsequent `GetSession(s.ID)` and a second `DestroySession(s.ID)` both return
the session-not-found error — while the owning managed process's session
counter is left unchanged (nothing on the destroy path decrements it). -/
theorem destroySession_removes_session (mgr : ManagerState) (count : Int)
    (sid : String) (s : Session)
    (hnodup : keysNodup mgr.sessions) (hs : assocLookup mgr.sessions sid = some s) :
    (systemDestroySession ⟨mgr, count⟩ sid none).1 = .ok () ∧
    (systemDestroySession ⟨mgr, count⟩ sid none).2.2 = s.PageIDs ∧
    getSession (systemDestroySession ⟨mgr, count⟩ sid none).2.1.manager sid =
      .error ("session not found: " ++ sid) ∧
    (destroySession (systemDestroySession ⟨mgr, count⟩ sid none).2.1.manager
      sid none).1 = .error ("session not found: " ++ sid) ∧
    (systemDestroySession ⟨mgr, count⟩ sid none).2.1.sessionCount = count := by
  have hdel : assocLookup (assocDelete mgr.sessions sid) sid = none :=
    assocLookup_delete_self hnodup sid
  have hres : systemDestroySession ⟨mgr, count⟩ sid none =
      (.ok (), ⟨⟨assocDelete mgr.sessions sid, mgr.cdpClients⟩, count⟩, s.PageIDs) := by
    simp [systemDestroySession, destroySession, hs]
  rw [hres]
  refine ⟨rfl, rfl, ?_, ?_, rfl⟩
  · simp [getSession, hdel]
  · simp [destroySession, hdel]

/-- Witness for C2 (amended): destroying the one registered session leaves
the counter at 3 and issues the close of its two pages. -/
theorem destroySession_removes_session_witness :
    (systemDestroySession ⟨⟨[("sess_B", ⟨"sess_B", 9222, "ctx2", ["p1", "p2"],
        7, SessionStatus.active⟩)], [(9222, 7)]⟩, 3⟩ "sess_B" none).2.2 =
      ["p1", "p2"] ∧
    (systemDestroySession ⟨⟨[("sess_B", ⟨"sess_B", 9222, "ctx2", ["p1", "p2"],
        7, SessionStatus.active⟩)], [(9222, 7)]⟩, 3⟩ "sess_B"
        none).2.1.sessionCount = 3 :=
  ⟨(destroySession_removes_session
      ⟨[("sess_B", ⟨"sess_B", 9222, "ctx2", ["p1", "p2"], 7,
        SessionStatus.active⟩)], [(9222, 7)]⟩ 3 "sess_B"
      ⟨"sess_B", 9222, "ctx2", ["p1", "p2"], 7, SessionStatus.active⟩
      (by simp [keysNodup, assocKeys]) rfl).2.1,
    (destroySession_removes_session
      ⟨[("sess_B", ⟨"sess_B", 9222, "ctx2", ["p1", "p2"], 7,
        SessionStatus.active⟩)], [(9222, 7)]⟩ 3 "sess_B"
      ⟨"sess_B", 9222, "ctx2", ["p1", "p2"], 7, SessionStatus.active⟩
      (by simp [keysNodup, assocKeys]) rfl).2.2.2.2⟩

/-! ## C8 — sessions' client references agree with the port map -/

theorem clientRefInvariant_iff (m : ManagerState) :
    clientRefInvariant m = true ↔
      ∀ pr ∈ m.sessions,
        assocLookup m.cdpClients pr.2.ProcessPort = some pr.2.CDPClient := by
  simp [clientRefInvariant, List.all_eq_true]

theorem destroySession_state (m : ManagerState) (sid : String) (de : Option String) :
    (destroySession m sid de).2.1.cdpClients = m.cdpClients ∧
    ∀ pr ∈ (destroySession m sid de).2.1.sessions, pr ∈ m.sessions := by
  cases hl : assocLookup m.sessions sid with
  | none => simp [destroySession, hl]
  | some s =>
      cases de with
      | some e => simp [destroySession, hl]
      | none =>
          simp only [destroySession, hl]
          exact ⟨by trivial, fun pr hpr => (assocDelete_sublist _ _).subset hpr⟩

theorem lookup_insert_preserved {cdp : List (Nat × Nat)} {port tok : Nat}
    (hnone : assocLookup cdp port = none) {pr : String × Session}
    (hpr : assocLookup cdp pr.2.ProcessPort = some pr.2.CDPClient) :
    assocLookup (assocInsert cdp port tok) pr.2.ProcessPort = some pr.2.CDPClient := by
  by_cases hp : pr.2.ProcessPort = port
  · rw [hp, hnone] at hpr
    cases hpr
  · rw [assocLookup_insert_ne _ _ hp]
    exact hpr

theorem applyOp_preserves_clientRef {m : ManagerState}
    (h : ∀ pr ∈ m.sessions,
      assocLookup m.cdpClients pr.2.ProcessPort = some pr.2.CDPClient)
    (op : ManagerOp) :
    ∀ pr ∈ (applyOp m op).sessions,
      assocLookup (applyOp m op).cdpClients pr.2.ProcessPort = some pr.2.CDPClient := by
  cases op with
  | get _ => exact h
  | list => exact h
  | closeAll =>
      intro pr hpr
      simp [applyOp, closeManager] at hpr
  | destroy sid de =>
      intro pr hpr
      obtain ⟨hcdp, hsub⟩ := destroySession_state m sid de
      rw [show applyOp m (.destroy sid de) = (destroySession m sid de).2.1 from rfl] at hpr ⊢
      rw [hcdp]
      exact h pr (hsub pr hpr)
  | create port env =>
      rw [show applyOp m (.create port env) = (createSession m port env).2 from rfl]
      cases hrand : env.randOk with
      | false => simp only [createSession, hrand, if_pos rfl]; exact h
      | true =>
          simp only [createSession, hrand]
          rw [if_neg (by decide : ¬(true = false))]
          cases hcl : assocLookup m.cdpClients port with
          | some c =>
              simp only [getOrCreateCDPClient, hcl]
              cases hctx : env.contextResult with
              | error e => exact h
              | ok ctxID =>
                  intro pr hpr
                  rcases List.mem_cons.mp hpr with hpr | hpr
                  · subst hpr
                    exact hcl
                  · exact h pr ((assocDelete_sublist _ _).subset hpr)
          | none =>
              cases hconn : env.conn with
              | failed e => simp only [getOrCreateCDPClient, hcl]; exact h
              | ok token =>
                  simp only [getOrCreateCDPClient, hcl]
                  cases hctx : env.contextResult with
                  | error e =>
                      intro pr hpr
                      exact lookup_insert_preserved hcl (h pr hpr)
                  | ok ctxID =>
                      intro pr hpr
                      rcases List.mem_cons.mp hpr with hpr | hpr
                      · subst hpr
                        exact assocLookup_insert_self _ _ _
                      · exact lookup_insert_preserved hcl
                          (h pr ((assocDelete_sublist _ _).subset hpr))

theorem applyOps_clientRef : ∀ (ops : List ManagerOp) (m : ManagerState),
    (∀ pr ∈ m.sessions,
      assocLookup m.cdpClients pr.2.ProcessPort = some pr.2.CDPClient) →
    ∀ pr ∈ (applyOps m ops).sessions,
      assocLookup (applyOps m ops).cdpClients pr.2.ProcessPort = some pr.2.CDPClient
  | [], _, h => h
  | op :: ops, _, h =>
      applyOps_clientRef ops _ (applyOp_preserves_clientRef h op)

/-- C8: in every manager state reachable from the fresh manager by any
sequence of `CreateSession`, `GetSession`, `DestroySession`, `ListSessions`
and `Close` operations, every registered session's stored client reference
equals the manager's port-to-client map entry for that session's port. -/
theorem manager_client_ref_invariant (ops : List ManagerOp) :
    clientRefInvariant (applyOps newManager ops) = true := by
  rw [clientRefInvariant_iff]
  refine applyOps_clientRef ops newManager ?_
  intro pr hpr
  simp [newManager] at hpr

end BrowserQueryAI
